import Mathlib

/-
Verification of the recipe-direction-to-structured-step core of recipebot
(src/recipebot/parser/step.py, src/recipebot/parser/methods.py,
src/recipebot/parser/spacy_utils.py), as a shallow embedding.

Python strings are modelled as `String` / `List Char`.  Every regular
expression appearing in the source is embedded as a dedicated scanning
function that implements the semantics of `re.search` / `re.split` /
`re.sub` for that concrete pattern: leftmost match, alternatives tried in
written order with backtracking, greedy (or lazy, where the pattern is
lazy) repetition.  Where a greedy/lazy choice provably cannot affect the
match for the concrete pattern (because the follow set of a repetition is
disjoint from its character class), the embedding is written
deterministically and a comment records the argument.

The spaCy statistical model (`spacy.load("en_core_web_md")`) is an external
binary resource, not code of this repository; the model-dependent analysis
functions are abstracted as a `SpacyBackend` record of opaque functions,
while everything the repository itself computes around them is embedded.
Python's str.lower()/str.upper() are modelled on ASCII letters, which covers
every character class the source's patterns and lexicons use.
-/

set_option maxRecDepth 8192

namespace Recipebot

/-! ### Python string primitives -/

/-- Python `str.lower()` restricted to ASCII letters. -/
def asciiLower (c : Char) : Char :=
  if c.isUpper then Char.ofNat (c.toNat + 32) else c

/-- Python `str.upper()` restricted to ASCII letters. -/
def asciiUpper (c : Char) : Char :=
  if c.isLower then Char.ofNat (c.toNat - 32) else c

/-- `text.lower()` as a character list. -/
def lowerS (s : String) : List Char := s.data.map asciiLower

/-- The characters matched by the regex class `\s` (ASCII). -/
def pyIsSpace (c : Char) : Bool :=
  c == ' ' || c == '\t' || c == '\n' || c == '\r' || c == '\x0b' || c == '\x0c'

def strOf (l : List Char) : String := String.mk l

/-- Python `needle in hay` (substring containment). -/
def isSubstr (needle : List Char) : List Char → Bool
  | [] => needle.isEmpty
  | c :: t => needle.isPrefixOf (c :: t) || isSubstr needle t

/-- `re.search` position scan: try a match-at-position function at every
position from the left, returning the leftmost success. -/
def firstSome {β : Type} (f : List Char → Option β) : List Char → Option β
  | [] => f []
  | c :: t => f (c :: t) <|> firstSome f t

def natOfDigits (ds : List Char) : Nat :=
  ds.foldl (fun n c => 10 * n + (c.toNat - 48)) 0

/-- Python `str.strip()` (whitespace on both ends). -/
def pyStrip (s : List Char) : List Char :=
  ((s.dropWhile pyIsSpace).reverse.dropWhile pyIsSpace).reverse

/-- Python `str.rstrip(cs)`: remove trailing characters belonging to `cs`. -/
def pyRstrip (s : List Char) (cs : List Char) : List Char :=
  (s.reverse.dropWhile (fun c => cs.contains c)).reverse

def pySplitWsAux : List Char → List Char → List (List Char)
  | [], cur => if cur.isEmpty then [] else [cur.reverse]
  | c :: t, cur =>
    if pyIsSpace c then
      if cur.isEmpty then pySplitWsAux t [] else cur.reverse :: pySplitWsAux t []
    else pySplitWsAux t (c :: cur)

/-- Python `str.split()` with no argument: split on whitespace runs,
discarding empty fragments. -/
def pySplitWs (s : List Char) : List (List Char) := pySplitWsAux s []

/-- Consume a literal, case-sensitively. -/
def stripLit (lit : List Char) (s : List Char) : Option (List Char) :=
  if lit.isPrefixOf s then some (s.drop lit.length) else none

/-- Consume a literal case-insensitively (regexes compiled with IGNORECASE). -/
def stripLitCI : List Char → List Char → Option (List Char)
  | [], s => some s
  | _ :: _, [] => none
  | l :: lt, c :: ct => if asciiLower l == asciiLower c then stripLitCI lt ct else none

/-- `\s*` (greedy), returning the consumed run and the rest. -/
def takeSpaces (s : List Char) : List Char × List Char := s.span pyIsSpace

def dropSpaces (s : List Char) : List Char := s.dropWhile pyIsSpace

/-- `\d+` (greedy), returning the digit run and the rest. -/
def matchDigits (s : List Char) : Option (List Char × List Char) :=
  let p := s.span Char.isDigit
  if p.1.isEmpty then none else some p

/-- `\d+(?:\.\d+)?` (greedy).  The follow sets of both repetitions in every
pattern using this numeral are disjoint from digits, so greedy consumption
without backtracking is exact. -/
def matchNumber (s : List Char) : Option (List Char × List Char) := do
  let (d, r) ← matchDigits s
  match r with
  | '.' :: r2 =>
    match matchDigits r2 with
    | some (f, r3) => some (d ++ '.' :: f, r3)
    | none => some (d, r)
  | _ => some (d, r)

/-- Python `int(float(numeral))` for a numeral produced by `\d+(?:\.\d+)?`:
truncation toward zero, i.e. the value of the digits before the point
(exact for numerals within double-precision range, which covers recipe
durations). -/
def pyIntFloat (numeral : List Char) : Nat :=
  natOfDigits (numeral.takeWhile Char.isDigit)

/-! ### Time extraction: the regexes of TIME_PATTERNS (step.py lines 22-28)
and the qualitative patterns (lines 106-109), applied to `text.lower()` so
the IGNORECASE flag is absorbed by lowercase literals. -/

/-- The unit alternation `(hour|hr|hours|hrs|minute|min|minutes|mins|second|sec|seconds|secs)`,
in the regex's written order. -/
def timeUnitAlts : List (List Char) :=
  ["hour", "hr", "hours", "hrs", "minute", "min", "minutes", "mins",
   "second", "sec", "seconds", "secs"].map String.data

/-- First alternative that is a prefix wins.  The alternation is followed
only by `s?` and the end of the pattern, so no continuation backtracking
can occur. -/
def firstPrefixAlt : List (List Char) → List Char → Option (List Char × List Char)
  | [], _ => none
  | a :: rest, s =>
    match stripLit a s with
    | some r => some (a, r)
    | none => firstPrefixAlt rest s

/-- TIME_PATTERNS[0]: `(\d+(?:\.\d+)?)\s*(?:to|\-)\s*(\d+(?:\.\d+)?)\s*(unit)s?`
at one position. -/
def tpRangeAt (s : List Char) : Option (List Char × List Char × List Char) := do
  let (n1, r1) ← matchNumber s
  let r2 ← stripLit "to".data (dropSpaces r1) <|> stripLit "-".data (dropSpaces r1)
  let (n2, r3) ← matchNumber (dropSpaces r2)
  let (u, _) ← firstPrefixAlt timeUnitAlts (dropSpaces r3)
  pure (n1, n2, u)

/-- `\s+(\d+(?:\.\d+)?)\s*(unit)s?`: the tail shared by the four keyword
alternatives of TIME_PATTERNS[1]. -/
def tpAboutTail (r : List Char) : Option (List Char × List Char) :=
  let (sp, r2) := takeSpaces r
  if sp.isEmpty then none
  else do
    let (n, r3) ← matchNumber r2
    let (u, _) ← firstPrefixAlt timeUnitAlts (dropSpaces r3)
    pure (n, u)

/-- TIME_PATTERNS[1]: `(?:about|approximately|around|for)\s+(\d+(?:\.\d+)?)\s*(unit)s?`
at one position; each alternative is tried with its full continuation. -/
def tpAboutAt (s : List Char) : Option (List Char × List Char) :=
  (stripLit "about".data s >>= tpAboutTail) <|>
  (stripLit "approximately".data s >>= tpAboutTail) <|>
  (stripLit "around".data s >>= tpAboutTail) <|>
  (stripLit "for".data s >>= tpAboutTail)

/-- TIME_PATTERNS[2]: `(\d+(?:\.\d+)?)\s*(unit)s?` at one position. -/
def tpSingleAt (s : List Char) : Option (List Char × List Char) := do
  let (n, r1) ← matchNumber s
  let (u, _) ← firstPrefixAlt timeUnitAlts (dropSpaces r1)
  pure (n, u)

/-- The word alternation of the first qualitative pattern. -/
def q1Words : List (List Char) :=
  ["golden", "brown", "soft", "tender", "translucent", "cooked", "done"].map String.data

/-- First qualitative pattern `until\s+(golden|brown|soft|tender|translucent|cooked|done)`
at one position, returning the matched text (`match.group(0)`). -/
def q1At (s : List Char) : Option (List Char) := do
  let r1 ← stripLit "until".data s
  let (sp, r2) := takeSpaces r1
  if sp.isEmpty then none
  else do
    let (w, _) ← firstPrefixAlt q1Words r2
    pure ("until".data ++ sp ++ w)

/-- The `\s+(?:is|are)` anchor after the lazy group of the second qualitative
pattern.  `is`/`are` start with non-space characters, so only the maximal
space run can precede them. -/
def q2After (r : List Char) : Option (List Char) :=
  let (sp2, r3) := takeSpaces r
  if sp2.isEmpty then none
  else if "is".data.isPrefixOf r3 then some (sp2 ++ "is".data)
  else if "are".data.isPrefixOf r3 then some (sp2 ++ "are".data)
  else none

/-- The lazy group `(.+?)` of `until\s+(.+?)\s+(?:is|are)`: grow the middle
one character at a time (shortest first), never across a newline, testing
the anchor after each growth step.  Returns middle ++ anchor text. -/
def q2Loop : List Char → List Char → Option (List Char)
  | _, [] => none
  | mid, c :: t =>
    if c == '\n' then none
    else
      match q2After t with
      | some tail => some ((mid ++ [c]) ++ tail)
      | none => q2Loop (mid ++ [c]) t

/-- Backtracking over the length of the leading `\s+` of the second
qualitative pattern: greedy, so the maximal space run is tried first and
shortened on failure (the lazy group can absorb the freed spaces). -/
def q2Backtrack : List Char → List Char → Option (List Char)
  | [], _ => none
  | [c], r2 => (q2Loop [] r2).map (fun rest => [c] ++ rest)
  | c :: c' :: spRev, r2 =>
    match q2Loop [] r2 with
    | some rest => some ((c :: c' :: spRev).reverse ++ rest)
    | none => q2Backtrack (c' :: spRev) (c :: r2)

/-- Second qualitative pattern `until\s+(.+?)\s+(?:is|are)` at one position,
returning the matched text (`match.group(0)`). -/
def q2At (s : List Char) : Option (List Char) := do
  let r1 ← stripLit "until".data s
  let (sp, r2) := takeSpaces r1
  if sp.isEmpty then none
  else (q2Backtrack sp.reverse r2).map (fun rest => "until".data ++ rest)

/-- `normalize_unit_to_singular` (step.py lines 72-84). -/
def normalize_unit_to_singular (u : List Char) : List Char :=
  if u.isEmpty then "minute".data
  else
    let ul := u.map asciiLower
    if (["hour", "hours", "hr", "hrs", "h"].map String.data).contains ul then "hour".data
    else if (["minute", "minutes", "min", "mins", "m"].map String.data).contains ul then "minute".data
    else if (["second", "seconds", "sec", "secs", "s"].map String.data).contains ul then "second".data
    else ul

/-- The time dictionary built by the extractors.  An absent key is `none`;
`duration` holds an `int` for numeric matches and the phrase string for
qualitative matches; `type` models the `"type"` key. -/
structure TimeInfo where
  duration : Option (Nat ⊕ String) := none
  duration_min : Option Nat := none
  duration_max : Option Nat := none
  unit : Option String := none
  type : Option String := none
deriving DecidableEq

/-- The regex branch of `extract_time_from_text` (step.py lines 67-118):
range pattern first, then the two single-value patterns (each returning as
soon as it matches), then the two qualitative patterns. -/
def extract_time_legacy (text : String) : TimeInfo :=
  let tl := lowerS text
  match firstSome tpRangeAt tl with
  | some (n1, n2, u) =>
    { duration_min := some (pyIntFloat n1), duration_max := some (pyIntFloat n2),
      unit := some (strOf (normalize_unit_to_singular u)) }
  | none =>
    match firstSome tpAboutAt tl with
    | some (n, u) =>
      { duration := some (Sum.inl (pyIntFloat n)),
        unit := some (strOf (normalize_unit_to_singular u)) }
    | none =>
      match firstSome tpSingleAt tl with
      | some (n, u) =>
        { duration := some (Sum.inl (pyIntFloat n)),
          unit := some (strOf (normalize_unit_to_singular u)) }
      | none =>
        match firstSome q1At tl with
        | some g0 => { duration := some (Sum.inr (strOf g0)), type := some "qualitative" }
        | none =>
          match firstSome q2At tl with
          | some g0 => { duration := some (Sum.inr (strOf g0)), type := some "qualitative" }
          | none => {}

/-! ### Temperature extraction: the regexes of TEMP_PATTERNS (step.py lines
31-35) and the preheat fallback (line 157), applied to `text.lower()`. -/

/-- The temperature dictionary; at most the keys `oven` and `heat` exist. -/
structure TempInfo where
  oven : Option String := none
  heat : Option String := none
deriving DecidableEq

/-- `[FC]` under IGNORECASE. -/
def fcChars : List Char := ['F', 'C', 'f', 'c']

/-- TEMP_PATTERNS[0]: `(\d+)\s*(?:degrees?|°)\s*([FC])` at one position,
returning the two capture groups.  After `degrees?`, only `\s*[FC]` follows
and `s` is in neither class, so greedy consumption of the optional `s` is
exact. -/
def t0At (s : List Char) : Option (List Char × Char) := do
  let (d, r1) ← matchDigits s
  let r2 := dropSpaces r1
  let r3 ← (do
      let r ← stripLit "degree".data r2
      pure (match r with | 's' :: r' => r' | _ => r))
    <|> stripLit "°".data r2
  match dropSpaces r3 with
  | c :: _ => if fcChars.contains c then pure (d, c) else none
  | [] => none

/-- TEMP_PATTERNS[1]: `(\d+)\s*([FC])` at one position. -/
def t1At (s : List Char) : Option (List Char × Char) := do
  let (d, r1) ← matchDigits s
  match dropSpaces r1 with
  | c :: _ => if fcChars.contains c then pure (d, c) else none
  | [] => none

/-- `\s+heat`: the continuation shared by the five heat-level alternatives. -/
def heatTail (r : List Char) : Option Unit :=
  let (sp, r2) := takeSpaces r
  if sp.isEmpty then none
  else if "heat".data.isPrefixOf r2 then some () else none

/-- TEMP_PATTERNS[2]: `(low|medium|high|medium-low|medium-high)\s+heat` at
one position; each alternative is tried with its full continuation, in the
regex's written order. -/
def t2At (s : List Char) : Option Unit :=
  (stripLit "low".data s >>= heatTail) <|>
  (stripLit "medium".data s >>= heatTail) <|>
  (stripLit "high".data s >>= heatTail) <|>
  (stripLit "medium-low".data s >>= heatTail) <|>
  (stripLit "medium-high".data s >>= heatTail)

/-- The lazy `.*?` of the preheat pattern up to the first digit: `.` does
not cross a newline, and everything after `(\d+)` is optional, so the
pattern matches at the first digit reachable without a newline. -/
def lazyToDigit : List Char → Option (List Char)
  | [] => none
  | c :: t =>
    if c.isDigit then some (c :: t)
    else if c == '\n' then none
    else lazyToDigit t

/-- The preheat fallback `preheat.*?(\d+)\s*°?\s*([FC])?` (step.py line 157)
at one position.  This pattern is compiled WITHOUT IGNORECASE yet searched
on lowered text, so its `[FC]` class can only ever fail there; it is
embedded as written. -/
def preheatAt (s : List Char) : Option (List Char × Option Char) := do
  let r1 ← stripLit "preheat".data s
  let r2 ← lazyToDigit r1
  let (d, r3) ← matchDigits r2
  let r4 := dropSpaces r3
  let r5 := match r4 with | '°' :: t => t | _ => r4
  let u := match dropSpaces r5 with
    | c :: _ => if c == 'F' || c == 'C' then some c else none
    | [] => none
  pure (d, u)

/-- The regex branch of `extract_temperature_from_text` (step.py lines
140-163).  The loop over TEMP_PATTERNS[:3] returns as soon as a pattern
matches; only when the match has exactly two groups is anything stored, so
a TEMP_PATTERNS[2] (qualitative heat, one group) match returns the
still-empty dictionary. -/
def extract_temperature_legacy (text : String) : TempInfo :=
  let tl := lowerS text
  match firstSome t0At tl with
  | some (d, u) => { oven := some (strOf (d ++ '°' :: [asciiUpper u])) }
  | none =>
    match firstSome t1At tl with
    | some (d, u) => { oven := some (strOf (d ++ '°' :: [asciiUpper u])) }
    | none =>
      match firstSome t2At tl with
      | some _ => {}
      | none =>
        match firstSome preheatAt tl with
        | some (d, u) => { oven := some (strOf (d ++ '°' :: [asciiUpper (u.getD 'F')])) }
        | none => {}

/-! ### Cooking-method extraction (methods.py).  The source stores the
lexicons as Python set literals whose iteration order is
implementation-defined; the embedding fixes the file's listing order as the
canonical order and, where iteration order could matter, order-general
theorems are stated over an arbitrary order. -/

/-- PRIMARY_METHODS (methods.py lines 8-58), in listing order. -/
def PRIMARY_METHODS : List String :=
  ["bake", "baking", "roast", "roasting", "broil", "broiling", "grill", "grilling",
   "fry", "frying", "deep fry", "deep-fry", "pan fry", "pan-fry",
   "sauté", "saute", "sautéing", "sauteing", "stir-fry", "stir fry", "stir-frying",
   "boil", "boiling", "simmer", "simmering", "steam", "steaming", "poach", "poaching",
   "braise", "braising", "sear", "searing", "toast", "toasting", "blanch", "blanching",
   "caramelize", "caramelizing", "smoke", "smoking", "cure", "curing",
   "marinate", "marinating", "ferment", "fermenting"]

/-- SECONDARY_METHODS (methods.py lines 77-270), in listing order. -/
def SECONDARY_METHODS : List String :=
  ["chop", "chopping", "finely chop", "roughly chop", "coarsely chop",
   "dice", "dicing", "finely dice", "small dice", "medium dice", "large dice",
   "mince", "mincing", "finely mince", "slice", "slicing", "thinly slice", "thickly slice",
   "julienne", "julienning", "cube", "cubing", "cut", "cutting", "trim", "trimming",
   "halve", "halving", "quarter", "quartering", "shred", "shredding",
   "grate", "grating", "finely grate", "coarsely grate", "zest", "zesting",
   "peel", "peeling", "core", "coring", "pit", "pitting", "debone", "deboning",
   "skin", "skinning",
   "mix", "mixing", "stir", "stirring", "whisk", "whisking", "beat", "beating",
   "whip", "whipping", "fold", "folding", "fold in", "combine", "combining",
   "blend", "blending", "puree", "pureeing", "cream", "creaming",
   "knead", "kneading", "toss", "tossing",
   "season", "seasoning", "salt", "salting", "pepper", "peppering",
   "garnish", "garnishing", "coat", "coating", "dredge", "dredging",
   "bread", "breading", "baste", "basting", "glaze", "glazing",
   "brush", "brushing", "drizzle", "drizzling", "sprinkle", "sprinkling",
   "dust", "dusting", "pour", "pouring", "add", "adding", "incorporate",
   "divide", "dividing", "separate", "separating", "strain", "straining",
   "drain", "draining", "rinse", "rinsing", "wash", "washing",
   "dry", "drying", "pat dry", "squeeze", "squeezing", "press", "pressing",
   "crush", "crushing", "mash", "mashing", "grind", "grinding", "sift", "sifting",
   "roll", "rolling", "roll out", "shape", "shaping", "form", "forming",
   "flatten", "flattening", "spread", "spreading", "layer", "layering",
   "arrange", "arranging", "transfer", "transferring", "remove", "removing",
   "discard", "discarding", "reserve", "reserving", "set aside",
   "let stand", "let sit", "let rest", "cool", "cooling", "chill", "chilling",
   "refrigerate", "refrigerating", "freeze", "freezing", "thaw", "thawing",
   "heat", "heating", "heat up", "warm", "warming", "warm up",
   "preheat", "preheating", "bring to a boil", "bring to boil", "bring to a simmer",
   "reduce heat", "reduce", "reducing", "increase heat", "turn off", "turn off heat",
   "cover", "covering", "uncover", "uncovering"]

/-- `method.rstrip("ing").rstrip("e")`: the dedup key of the legacy
extractor (character-class strip, not suffix removal). -/
def baseOf (m : String) : String :=
  strOf (pyRstrip (pyRstrip m.data "ing".data) "e".data)

/-- One iteration of the per-lexicon loop of `_extract_methods_legacy`
(methods.py lines 414-421 / 423-427): append a substring-matching method
unless its dedup key or the method itself is already in the accumulated
list. -/
def methodsStep (textLower : List Char) (found : List String) (m : String) : List String :=
  if isSubstr m.data textLower then
    if !found.contains (baseOf m) && !found.contains m then found ++ [m] else found
  else found

/-- The per-lexicon loop of `_extract_methods_legacy`. -/
def methodsFold (methods : List String) (textLower : List Char) : List String :=
  methods.foldl (methodsStep textLower) []

/-- `_extract_methods_legacy` (methods.py lines 401-429), with the set
iteration order fixed to the listing order. -/
def _extract_methods_legacy (text : String) : List String × List String :=
  (methodsFold PRIMARY_METHODS (lowerS text), methodsFold SECONDARY_METHODS (lowerS text))

/-! ### Step classification (step.py lines 217-292). -/

inductive InfoType where
  | warning
  | advice
  | observation
deriving DecidableEq

def warning_patterns : List String :=
  ["be careful", "do not", "don\x27t", "avoid", "make sure", "watch", "be sure", "ensure"]

def advice_patterns : List String :=
  ["you can", "alternatively", "tip:", "note:", "optional", "if desired", "for best results"]

def observation_patterns : List String :=
  ["will be", "should be", "will look", "should look", "will become",
   "it will", "this will", "the mixture will"]

def prep_patterns : List String :=
  ["set aside", "reserve", "let stand", "let sit", "let rest", "let cool",
   "refrigerate", "chill", "freeze"]

/-- `any(pattern in text_lower for pattern in pats)`. -/
def containsAny (pats : List String) (tl : List Char) : Bool :=
  pats.any (fun p => isSubstr p.data tl)

/-- `classify_step_type` with `use_spacy=False`: the ordered pattern checks
of step.py lines 239-292 (the spaCy-only modal check at lines 252-261 is
absent on this path). -/
def classify_step_type_legacy (text : String) : Bool × Bool × Option InfoType :=
  let tl := lowerS text
  if containsAny warning_patterns tl then (true, false, some .warning)
  else if containsAny advice_patterns tl then (false, false, some .advice)
  else if containsAny observation_patterns tl then (false, false, some .observation)
  else (true, containsAny prep_patterns tl, none)

/-! ### Atomic-step segmentation: the regex cascade of SENTENCE_SPLITTERS
(step.py lines 38-45) and the shared cleanup (lines 180-190 / 204-212).
The splitter patterns are compiled with IGNORECASE and applied to the raw
direction text. -/

/-- `\.\s+(?=[A-Z])` at one position: period, at least one whitespace
character (greedy; the lookahead rejects whitespace, so only the maximal
run can succeed), and a letter lookahead (IGNORECASE makes `[A-Z]` match
both cases; the letter is not consumed). -/
def sepDotAt : List Char → Option (List Char)
  | '.' :: t =>
    let (sp, r) := takeSpaces t
    if sp.isEmpty then none
    else
      match r with
      | c :: _ => if c.isAlpha then some r else none
      | [] => none
  | _ => none

/-- `;\s*` at one position. -/
def sepSemiAt : List Char → Option (List Char)
  | ';' :: t => some (dropSpaces t)
  | _ => none

/-- `<w>\s+` case-insensitively: a word then at least one whitespace. -/
def wordThenSpaces (w : List Char) (s : List Char) : Option (List Char) := do
  let r ← stripLitCI w s
  let (sp2, r2) := takeSpaces r
  if sp2.isEmpty then none else some r2

/-- `,\s+<w>\s+` at one position (IGNORECASE): used for `, then ` and for
`, and then `.  The source pattern is `,\s+and then\s+` with one literal
space between `and` and `then`, which `stripLitCI "and then"` preserves. -/
def sepCommaWordAt (w : List Char) : List Char → Option (List Char)
  | ',' :: t =>
    let (sp, r) := takeSpaces t
    if sp.isEmpty then none else wordThenSpaces w r
  | _ => none

/-- `\s+<w>\s+` at one position (IGNORECASE): used for ` meanwhile ` and
` while `. -/
def sepSpaceWordAt (w : List Char) (s : List Char) : Option (List Char) :=
  let (sp, r) := takeSpaces s
  if sp.isEmpty then none else wordThenSpaces w r

/-- `re.split` driver: scan left to right, non-overlapping; every splitter
pattern of the cascade consumes at least one character, so the fuel
`s.length + 1` is never exhausted (the fuel-0 branch is a total-function
default that concatenates the leftover and is unreachable). -/
def pySplitGo (mAt : List Char → Option (List Char)) :
    Nat → List Char → List Char → List (List Char) → List (List Char)
  | 0, s, cur, parts => parts ++ [cur.reverse ++ s]
  | fuel + 1, s, cur, parts =>
    match s with
    | [] => parts ++ [cur.reverse]
    | c :: t =>
      match mAt s with
      | some rest => pySplitGo mAt fuel rest [] (parts ++ [cur.reverse])
      | none => pySplitGo mAt fuel t (c :: cur) parts

def pySplit (mAt : List Char → Option (List Char)) (s : List Char) : List (List Char) :=
  pySplitGo mAt (s.length + 1) s [] []

/-- One pass of the cascade (step.py lines 196-202):
`new_steps.extend([p.strip() for p in parts if p.strip()])`. -/
def applySplitter (mAt : List Char → Option (List Char)) (steps : List (List Char)) :
    List (List Char) :=
  steps.flatMap (fun st => ((pySplit mAt st).map pyStrip).filter (fun p => !p.isEmpty))

/-- SENTENCE_SPLITTERS (step.py lines 38-45), in order. -/
def SENTENCE_SPLITTERS : List (List Char → Option (List Char)) :=
  [sepDotAt, sepSemiAt,
   sepCommaWordAt "then".data, sepCommaWordAt "and then".data,
   sepSpaceWordAt "meanwhile".data, sepSpaceWordAt "while".data]

/-- The cascade: each splitter is applied to the output of the previous
pass, starting from the single original direction. -/
def regexCascade (direction : List Char) : List (List Char) :=
  SENTENCE_SPLITTERS.foldl (fun steps m => applySplitter m steps) [direction]

/-- `re.sub(r"^(then|and|meanwhile|while)\s+", "", step, IGNORECASE)`: the
four alternatives start with distinct letters, so at most one can apply;
the removed text is the conjunction plus the maximal whitespace run, and
the requirement of at least one trailing whitespace means a fragment that
IS exactly a bare conjunction is left unchanged. -/
def conjScrub (s : List Char) : List Char :=
  ((stripLitCI "then".data s <|> stripLitCI "and".data s <|>
    stripLitCI "meanwhile".data s <|> stripLitCI "while".data s).bind
    (fun r =>
      let (sp, r2) := takeSpaces r
      if sp.isEmpty then none else some r2)).getD s

/-- `step[0].upper() + step[1:]`. -/
def capFirst : List Char → List Char
  | [] => []
  | c :: t => asciiUpper c :: t

/-- The cleanup loop shared by both strategies (step.py lines 180-188 and
204-212): strip a leading conjunction, drop fragments that became empty,
and capitalize the first letter of the survivors. -/
def cleanedParts (parts : List (List Char)) : List (List Char) :=
  parts.filterMap (fun st =>
    let st2 := conjScrub st
    if st2.isEmpty then none else some (capFirst st2))

/-- Cleanup plus the fallback of step.py lines 190 / 214: the original
direction is returned verbatim when nothing survives. -/
def cleanupSteps (parts : List (List Char)) (direction : List Char) : List (List Char) :=
  let cleaned := cleanedParts parts
  if cleaned.isEmpty then [direction] else cleaned

/-- The regex branch of `split_into_atomic_steps` (step.py lines 192-214). -/
def split_into_atomic_steps_legacy (direction : String) : List String :=
  (cleanupSteps (regexCascade direction.data) direction.data).map strOf

/-! ### Ingredient attribution (step.py lines 295-352, legacy branch). -/

/-- The `Ingredient` record (model.py lines 6-11).  `name` is typed as a
required string but the parser defends against `None`, so it is modelled
as optional. -/
structure Ingredient where
  name : Option String
  quantity : String := ""
  unit : Option String := none
  preparation : Option String := none
  misc : Option String := none
deriving DecidableEq

/-- The legacy branch of `extract_ingredients_from_step` (step.py lines
320-352): substring, "the "-prefixed, naive-plural, and long-word partial
matches, in that order, preserving the catalog order. -/
def extract_ingredients_from_step_legacy (step_text : String)
    (all_ingredients : List Ingredient) : List Ingredient :=
  let tl := lowerS step_text
  all_ingredients.filterMap (fun ing =>
    match ing.name with
    | none => none
    | some nm =>
      let nl := lowerS nm
      if isSubstr nl tl then some ing
      else if isSubstr ("the ".data ++ nl) tl then some ing
      else if isSubstr (nl ++ ['s']) tl then some ing
      else if (pySplitWs nl).any (fun part => part.length > 3 && isSubstr part tl) then some ing
      else none)

/-! ### The orchestrator (step.py lines 355-425), instantiated at
`use_spacy=False` so every sub-extractor is the embedded regex branch.
`extract_tools_from_text` lives in `recipebot/parser/tools.py`, which is
not among the sources (only its import and call site are); since no
verified property depends on its output, the orchestrator is parameterized
by it and every theorem quantifies over the tool extractor. -/

/-- The transient context dictionary: the only key the source ever uses is
`"oven_temp"`; an absent key is `none`. -/
structure ParseContext where
  oven_temp : Option String := none
deriving DecidableEq

/-- The `Step` record as constructed at step.py lines 409-420. -/
structure Step where
  step_number : Nat
  description : String
  ingredients : List Ingredient
  tools : List String
  methods : List String
  time : TimeInfo
  temperature : TempInfo
  actionable : Bool
  is_prepared : Bool
  info_type : Option InfoType
deriving DecidableEq

/-- The carry-forward trigger list of step.py line 394. -/
def bake_roast_methods : List String := ["bake", "baking", "roast", "roasting"]

/-- The body of the inner loop of `parse_steps_from_directions` (step.py
lines 384-423) for one atomic step: run the extractors, apply the
oven-temperature carry-forward and context update, classify, attribute
ingredients, and build the `Step`. -/
def processAtomic (extractTools : String → List String)
    (all_ingredients : List Ingredient) (ctx : ParseContext) (n : Nat)
    (atomic : String) : Step × ParseContext :=
  let tools := extractTools atomic
  let pm := (_extract_methods_legacy atomic).1
  let sm := (_extract_methods_legacy atomic).2
  let time_info := extract_time_legacy atomic
  let t0 := extract_temperature_legacy atomic
  let temp_info :=
    if pm.any (fun m => bake_roast_methods.contains m) && t0.oven.isNone
        && ctx.oven_temp.isSome then
      { t0 with oven := ctx.oven_temp }
    else t0
  let ctx' := if temp_info.oven.isSome then { oven_temp := temp_info.oven } else ctx
  let cls := classify_step_type_legacy atomic
  let step_ings := extract_ingredients_from_step_legacy atomic all_ingredients
  ({ step_number := n, description := atomic, ingredients := step_ings,
     tools := tools, methods := pm ++ sm, time := time_info,
     temperature := temp_info, actionable := cls.1, is_prepared := cls.2.1,
     info_type := cls.2.2 }, ctx')

/-- One iteration of the inner loop: emit the step and advance the
counter and context. -/
def parseAccStep (extractTools : String → List String)
    (all_ingredients : List Ingredient) (acc : List Step × Nat × ParseContext)
    (atomic : String) : List Step × Nat × ParseContext :=
  let r := processAtomic extractTools all_ingredients acc.2.2 acc.2.1 atomic
  (acc.1 ++ [r.1], acc.2.1 + 1, r.2)

/-- The double loop of `parse_steps_from_directions` (step.py lines
380-423), threading (steps, step_number, context) and returning all three. -/
def parse_core (extractTools : String → List String) (directions : List String)
    (all_ingredients : List Ingredient) (ctx0 : ParseContext)
    (split_by_atomic_steps : Bool) : List Step × Nat × ParseContext :=
  directions.foldl (fun acc d =>
    (if split_by_atomic_steps then split_into_atomic_steps_legacy d else [d]).foldl
      (parseAccStep extractTools all_ingredients) acc)
    ([], 1, ctx0)

/-- `parse_steps_from_directions` (step.py lines 355-425) at
`use_spacy=False`: a `context=None` argument is replaced by a fresh empty
dictionary (lines 374-375). -/
def parse_steps_from_directions (extractTools : String → List String)
    (directions : List String) (all_ingredients : List Ingredient)
    (context : Option ParseContext) (split_by_atomic_steps : Bool) : List Step :=
  (parse_core extractTools directions all_ingredients
    (context.getD {}) split_by_atomic_steps).1

/-! ### The advanced (spaCy) strategy.  The loaded `en_core_web_md` model is
an external statistical resource: its per-text analyses are abstracted as a
record of opaque functions, one per model-dependent computation the source
performs (spacy_utils.py).  What each entry point does AROUND the model —
the `get_nlp` load-failure behavior and the fallback-to-regex logic — is
embedded exactly. -/

/-- An abstraction of a successfully loaded spaCy model: each field stands
for the result of one model-dependent helper of spacy_utils.py on a given
text. -/
structure SpacyBackend where
  /-- `split_into_sentences_with_spacy` (model-dependent through `doc.sents`). -/
  sentences : String → List String
  /-- `extract_time_with_spacy` over the matcher results for the text. -/
  timeInfo : String → TimeInfo
  /-- `extract_temperature_with_spacy` over the matcher results for the text. -/
  tempInfo : String → TempInfo
  /-- `_extract_methods_with_spacy` after its `get_nlp()` call. -/
  methodsResult : String → List String × List String
  /-- The modal-verb observation check of step.py lines 252-261. -/
  modalObservation : String → Bool
  /-- `match_ingredient_with_spacy name doc`. -/
  ingredientMatch : String → String → Bool

/-- The message of the RuntimeError raised by `get_nlp` (spacy_utils.py
line 24) when `spacy.load` fails. -/
def spacyLoadError : String :=
  "Failed to load spaCy model. Please ensure it is installed and available."

/-- `get_nlp` (spacy_utils.py lines 13-25): the model argument is `none`
when `spacy.load` raises OSError; a raised RuntimeError is modelled as
`Except.error`. -/
def get_nlp (model : Option SpacyBackend) : Except String SpacyBackend :=
  match model with
  | some nlp => Except.ok nlp
  | none => Except.error spacyLoadError

/-- `extract_time_from_text` (step.py lines 48-118): on the spaCy path the
model is loaded first (failing fast), its result is returned if non-empty
(`if spacy_time_info:`), and otherwise the regex branch runs. -/
def extract_time_from_text (model : Option SpacyBackend) (text : String)
    (use_spacy : Bool) : Except String TimeInfo :=
  if use_spacy then do
    let nlp ← get_nlp model
    let si := nlp.timeInfo text
    if si ≠ ({} : TimeInfo) then pure si else pure (extract_time_legacy text)
  else pure (extract_time_legacy text)

/-- `extract_temperature_from_text` (step.py lines 121-163), same shape. -/
def extract_temperature_from_text (model : Option SpacyBackend) (text : String)
    (use_spacy : Bool) : Except String TempInfo :=
  if use_spacy then do
    let nlp ← get_nlp model
    let si := nlp.tempInfo text
    if si ≠ ({} : TempInfo) then pure si else pure (extract_temperature_legacy text)
  else pure (extract_temperature_legacy text)

/-- `extract_methods_from_text` (methods.py lines 276-289): the spaCy
branch is `_extract_methods_with_spacy`, whose first act is `get_nlp()`. -/
def extract_methods_from_text (model : Option SpacyBackend) (text : String)
    (use_spacy : Bool) : Except String (List String × List String) :=
  if use_spacy then do
    let nlp ← get_nlp model
    pure (nlp.methodsResult text)
  else pure (_extract_methods_legacy text)

/-- `split_into_atomic_steps` (step.py lines 166-214): the spaCy branch
loads the model, splits into sentences, and applies the same cleanup loop
as the regex branch. -/
def split_into_atomic_steps (model : Option SpacyBackend) (direction : String)
    (use_spacy : Bool) : Except String (List String) :=
  if use_spacy then do
    let nlp ← get_nlp model
    pure ((cleanupSteps ((nlp.sentences direction).map String.data) direction.data).map strOf)
  else pure (split_into_atomic_steps_legacy direction)

/-- `classify_step_type` (step.py lines 217-292): the spaCy path loads the
model (the imperative-sentence check it computes is unused), then runs the
same ordered pattern checks with the extra modal-verb observation check
inserted between the advice and observation pattern lists. -/
def classify_step_type (model : Option SpacyBackend) (text : String)
    (use_spacy : Bool) : Except String (Bool × Bool × Option InfoType) :=
  if use_spacy then do
    let nlp ← get_nlp model
    let tl := lowerS text
    if containsAny warning_patterns tl then pure (true, false, some .warning)
    else if containsAny advice_patterns tl then pure (false, false, some .advice)
    else if nlp.modalObservation text then pure (false, false, some .observation)
    else if containsAny observation_patterns tl then pure (false, false, some .observation)
    else pure (true, containsAny prep_patterns tl, none)
  else pure (classify_step_type_legacy text)

/-- `extract_ingredients_from_step` (step.py lines 295-352): the spaCy
branch filters the catalog by `match_ingredient_with_spacy`, skipping
`None` names. -/
def extract_ingredients_from_step (model : Option SpacyBackend) (step_text : String)
    (all_ingredients : List Ingredient) (use_spacy : Bool) :
    Except String (List Ingredient) :=
  if use_spacy then do
    let nlp ← get_nlp model
    pure (all_ingredients.filterMap (fun ing =>
      match ing.name with
      | none => none
      | some nm => if nlp.ingredientMatch nm step_text then some ing else none))
  else pure (extract_ingredients_from_step_legacy step_text all_ingredients)

/-- A concrete backend used to instantiate theorems that quantify over the
model: sentence segmentation returns the text unsplit and every other
analysis reports nothing. -/
def plainBackend : SpacyBackend where
  sentences := fun s => [s]
  timeInfo := fun _ => {}
  tempInfo := fun _ => {}
  methodsResult := fun _ => ([], [])
  modalObservation := fun _ => false
  ingredientMatch := fun _ _ => false

/-- The second of two successive `parse_steps_from_directions` calls made
with the default `context=None` (as recipe.py line 91 does), in a run whose
first call finished with internal context `priorFinalCtx`.  The Python
entry point replaces `None` by a fresh local dictionary (step.py lines
374-375) and the first call's dictionary is function-local, so no channel
carries `priorFinalCtx` into the second call: the faithful model simply
does not depend on it. -/
def second_invocation_after (tools : String → List String) (ds : List String)
    (ings : List Ingredient) (split : Bool) (_priorFinalCtx : ParseContext) :
    List Step :=
  parse_steps_from_directions tools ds ings none split

/-- The numbering invariant carried by the orchestrator's accumulator:
the emitted steps are numbered 1..k in order and the counter is k+1. -/
def NumberedAcc (acc : List Step × Nat × ParseContext) : Prop :=
  acc.1.map Step.step_number = List.range' 1 acc.1.length ∧ acc.2.1 = acc.1.length + 1

/-- Results of the fallible entry points are decidably comparable. -/
instance {ε α : Type} [DecidableEq ε] [DecidableEq α] : DecidableEq (Except ε α) := fun a b =>
  match a, b with
  | .error e, .error e' =>
    if h : e = e' then isTrue (by rw [h]) else isFalse (fun hh => h (Except.error.inj hh))
  | .error _, .ok _ => isFalse (fun hh => Except.noConfusion hh)
  | .ok _, .error _ => isFalse (fun hh => Except.noConfusion hh)
  | .ok x, .ok y =>
    if h : x = y then isTrue (by rw [h]) else isFalse (fun hh => h (Except.ok.inj hh))

/-! ### Helper lemmas -/

lemma strOf_data (s : String) : strOf s.data = s := by
  cases s
  rfl

lemma mem_foldl_methodsStep_of_mem (tl : List Char) (x : String) (ms : List String) :
    ∀ acc : List String, x ∈ acc → x ∈ ms.foldl (methodsStep tl) acc := by
  induction ms with
  | nil => intro acc h; simpa using h
  | cons m ms ih =>
    intro acc h
    simp only [List.foldl_cons]
    apply ih
    unfold methodsStep
    split
    · split
      · exact List.mem_append_left _ h
      · exact h
    · exact h

/-- A self-based method (its rstrip key equals itself) that matches the text
ends up in the output of the legacy loop, for EVERY iteration order of the
lexicon set. -/
lemma mem_foldl_methodsStep_self (tl : List Char) (m : String)
    (hsub : isSubstr m.data tl = true) (hbase : baseOf m = m) (ms : List String) :
    ∀ acc : List String, m ∈ ms → m ∈ ms.foldl (methodsStep tl) acc := by
  induction ms with
  | nil => intro acc h; exact absurd h (List.not_mem_nil m)
  | cons e ms ih =>
    intro acc h
    simp only [List.foldl_cons]
    rcases List.mem_cons.mp h with he | hm
    · subst he
      apply mem_foldl_methodsStep_of_mem
      by_cases hc : baseOf m ∉ acc ∧ m ∉ acc
      · simp [methodsStep, hsub, hc]
      · have hmem : m ∈ acc := by
          rw [hbase] at hc
          rcases not_and_or.mp hc with h1 | h1 <;> exact not_not.mp h1
        simp [methodsStep, hsub, hc, hmem]
    · exact ih _ hm

lemma mem_cleanedParts_ne_nil {parts : List (List Char)} {l : List Char}
    (hl : l ∈ cleanedParts parts) : l ≠ [] := by
  rw [cleanedParts, List.mem_filterMap] at hl
  obtain ⟨st, _, hst⟩ := hl
  by_cases he : (conjScrub st).isEmpty
  · simp [he] at hst
  · simp only [he, if_false, Bool.false_eq_true, ite_false] at hst
    cases hcs : conjScrub st with
    | nil => rw [hcs] at he; simp at he
    | cons c t =>
      rw [hcs] at hst
      have hl : capFirst (c :: t) = l := Option.some.inj hst
      rw [← hl]
      simp [capFirst]

lemma numberedAcc_parseAccStep (tools : String → List String)
    (ings : List Ingredient) (acc : List Step × Nat × ParseContext) (a : String)
    (h : NumberedAcc acc) : NumberedAcc (parseAccStep tools ings acc a) := by
  obtain ⟨h1, h2⟩ := h
  have hnum : (processAtomic tools ings acc.2.2 acc.2.1 a).1.step_number = acc.2.1 := rfl
  constructor
  · show (acc.1 ++ [(processAtomic tools ings acc.2.2 acc.2.1 a).1]).map Step.step_number
      = List.range' 1 (acc.1 ++ [(processAtomic tools ings acc.2.2 acc.2.1 a).1]).length
    rw [List.map_append, List.length_append, h1, List.map_cons, List.map_nil, hnum, h2]
    simp [List.range'_1_concat, Nat.add_comm]
  · show acc.2.1 + 1 = (acc.1 ++ [(processAtomic tools ings acc.2.2 acc.2.1 a).1]).length + 1
    rw [List.length_append, h2]
    simp

lemma numberedAcc_foldl_atomics (tools : String → List String)
    (ings : List Ingredient) (atomics : List String) :
    ∀ acc, NumberedAcc acc → NumberedAcc (atomics.foldl (parseAccStep tools ings) acc) := by
  induction atomics with
  | nil => intro acc h; exact h
  | cons a as ih =>
    intro acc h
    simp only [List.foldl_cons]
    exact ih _ (numberedAcc_parseAccStep tools ings acc a h)

lemma numberedAcc_parse_core (tools : String → List String) (ds : List String)
    (ings : List Ingredient) (ctx0 : ParseContext) (split : Bool) :
    NumberedAcc (parse_core tools ds ings ctx0 split) := by
  unfold parse_core
  have main : ∀ (ds : List String) (acc), NumberedAcc acc →
      NumberedAcc (ds.foldl (fun acc d =>
        (if split then split_into_atomic_steps_legacy d else [d]).foldl
          (parseAccStep tools ings) acc) acc) := by
    intro ds
    induction ds with
    | nil => intro acc h; exact h
    | cons d ds ih =>
      intro acc h
      simp only [List.foldl_cons]
      exact ih _ (numberedAcc_foldl_atomics tools ings _ acc h)
  apply main
  constructor <;> simp [NumberedAcc]

end Recipebot

namespace Recipebot

/-! ### The claims -/

/-- Claim C1: in `parse_steps_from_directions`, an atomic step whose primary
methods include bake/roast (or -ing forms) and whose own text yields no oven
reading receives the context's stored oven temperature; a step whose own
text yields an oven reading replaces the stored value for subsequent steps;
and parsing ["Preheat oven to 350°F.", "Bake for 30 minutes."] gives a
second step whose temperature mapping is exactly {oven: "350°F"} — for
every tool extractor. -/
theorem oven_context_propagation :
    (∀ (tools : String → List String) (ings : List Ingredient) (ctx : ParseContext)
        (n : Nat) (atomic : String) (T : String),
        (_extract_methods_legacy atomic).1.any
          (fun m => bake_roast_methods.contains m) = true →
        (extract_temperature_legacy atomic).oven = none →
        ctx.oven_temp = some T →
        (processAtomic tools ings ctx n atomic).1.temperature.oven = some T)
    ∧ (∀ (tools : String → List String) (ings : List Ingredient) (ctx : ParseContext)
        (n : Nat) (atomic : String) (U : String),
        (extract_temperature_legacy atomic).oven = some U →
        (processAtomic tools ings ctx n atomic).2.oven_temp = some U)
    ∧ (∀ tools : String → List String,
        (parse_steps_from_directions tools
            ["Preheat oven to 350°F.", "Bake for 30 minutes."] [] none true).map
          (fun st => st.temperature) =
        [{ oven := some "350°F" }, { oven := some "350°F" }]) := by
  refine ⟨?_, ?_, ?_⟩
  · intro tools ings ctx n atomic T h1 h2 h3
    have h1' : ∃ x ∈ (_extract_methods_legacy atomic).1, x ∈ bake_roast_methods := by
      simpa using h1
    simp [processAtomic, h2, h3]
    rw [if_pos h1']
  · intro tools ings ctx n atomic U h
    simp [processAtomic, h]
  · intro tools
    rfl

/-- Witness for C1: the carry-forward hypothesis holds at the concrete
baking step and the conclusion evaluates there. -/
theorem oven_context_propagation_witness :
    (_extract_methods_legacy "Bake for 30 minutes.").1.any
      (fun m => bake_roast_methods.contains m) = true
    ∧ (processAtomic (fun _ => []) [] { oven_temp := some "350°F" } 2
        "Bake for 30 minutes.").1.temperature.oven = some "350°F" :=
  ⟨by decide,
   oven_context_propagation.1 (fun _ => []) [] { oven_temp := some "350°F" } 2
     "Bake for 30 minutes." "350°F" (by decide) (by decide) rfl⟩

/-- Counterexample to claim C2: under the regex fallback strategy,
"deep fry the chicken" yields a primary list that contains BOTH "deep fry"
and "fry" — the claim's assertion that "fry" is absent is false. -/
theorem deep_fry_also_records_fry :
    "deep fry" ∈ (_extract_methods_legacy "deep fry the chicken").1
    ∧ "fry" ∈ (_extract_methods_legacy "deep fry the chicken").1 := by
  constructor <;> decide

/-- Claim C2 (amended): the regex fallback performs no longest-match
suppression: for EVERY iteration order of the primary lexicon containing
"fry" and "deep fry", both end up in the primary list for
"deep fry the chicken"; with the listing order the result is exactly
(["fry", "deep fry"], []). -/
theorem legacy_methods_no_longest_match :
    (∀ order : List String, "fry" ∈ order → "deep fry" ∈ order →
        "fry" ∈ methodsFold order (lowerS "deep fry the chicken")
        ∧ "deep fry" ∈ methodsFold order (lowerS "deep fry the chicken"))
    ∧ _extract_methods_legacy "deep fry the chicken" = (["fry", "deep fry"], []) := by
  constructor
  · intro order h1 h2
    constructor
    · exact mem_foldl_methodsStep_self _ _ (by decide) (by decide) order [] h1
    · exact mem_foldl_methodsStep_self _ _ (by decide) (by decide) order [] h2
  · decide

/-- Witness for C2 (amended), at the canonical lexicon order. -/
theorem legacy_methods_no_longest_match_witness :
    "fry" ∈ methodsFold PRIMARY_METHODS (lowerS "deep fry the chicken")
    ∧ "deep fry" ∈ methodsFold PRIMARY_METHODS (lowerS "deep fry the chicken") :=
  legacy_methods_no_longest_match.1 PRIMARY_METHODS (by decide) (by decide)

/-- Claim C3 (code bug): the regex strategy returns the EMPTY mapping for
"cook over medium heat", not {heat: "medium heat"}: the qualitative pattern
has one capture group, so the source's `len(match.groups()) == 2` guard
fails and the still-empty dictionary is returned. -/
theorem medium_heat_regex_returns_empty :
    extract_temperature_from_text none "cook over medium heat" false = Except.ok {}
    ∧ extract_temperature_from_text none "cook over medium heat" false ≠
        Except.ok { heat := some "medium heat" } := by
  constructor <;> decide

/-- Counterexample to claim C4: under the regex fallback strategy the
qualitative duration stored for "bake until golden brown" is the matched
text "until golden", not the full phrase "until golden brown". -/
theorem until_golden_brown_not_full_phrase :
    extract_time_from_text none "bake until golden brown" false =
      Except.ok { duration := some (Sum.inr "until golden"), type := some "qualitative" }
    ∧ extract_time_from_text none "bake until golden brown" false ≠
        Except.ok { duration := some (Sum.inr "until golden brown"),
                    type := some "qualitative" } := by
  constructor <;> decide

/-- Claim C4 (amended): under the regex fallback strategy,
"bake until golden brown" yields {duration: "until golden",
type: "qualitative"} (the pattern captures "until" plus the single
following keyword), and text with no time phrase yields the empty
mapping. -/
theorem qualitative_time_regex_behavior :
    extract_time_from_text none "bake until golden brown" false =
      Except.ok { duration := some (Sum.inr "until golden"), type := some "qualitative" }
    ∧ extract_time_from_text none "Season with salt and pepper." false = Except.ok {} := by
  constructor <;> decide

/-- Claim C5: the caution-phrase rule fires first under both strategies
(for any loaded backend), so any text containing a caution phrase is
classified (true, false, warning); and the three concrete examples classify
as stated under the regex strategy. -/
theorem caution_phrase_classifies_warning :
    (∀ (nlp : SpacyBackend) (text : String) (use_spacy : Bool),
        containsAny warning_patterns (lowerS text) = true →
        classify_step_type (some nlp) text use_spacy =
          Except.ok (true, false, some .warning))
    ∧ classify_step_type none "Do not overmix the batter." false =
        Except.ok (true, false, some .warning)
    ∧ classify_step_type none "Let cool before serving." false =
        Except.ok (true, true, none)
    ∧ classify_step_type none "The mixture will thicken as it cools." false =
        Except.ok (false, false, some .observation) := by
  refine ⟨?_, by decide, by decide, by decide⟩
  intro nlp text us h
  cases us <;>
    (simp [classify_step_type, classify_step_type_legacy, get_nlp, h]; try rfl)

/-- Witness for C5: a caution phrase under the spaCy strategy with a
loaded backend. -/
theorem caution_phrase_classifies_warning_witness :
    classify_step_type (some plainBackend) "Do not stir too hard." true =
      Except.ok (true, false, some InfoType.warning) :=
  caution_phrase_classifies_warning.1 plainBackend "Do not stir too hard." true (by decide)

/-- Counterexample to claim C6: under the regex strategy a fragment that is
exactly a bare conjunction is NOT discarded: "Mix; then" splits into
["Mix", "Then"] — conjunction stripping requires trailing whitespace, so
the bare "then" survives (capitalized). -/
theorem bare_conjunction_fragment_kept :
    split_into_atomic_steps none "Mix; then" false = Except.ok ["Mix", "Then"]
    ∧ split_into_atomic_steps none "Mix; then" false ≠ Except.ok ["Mix"] := by
  constructor <;> decide

/-- Claim C6 (amended): for every non-empty direction the regex strategy
returns a non-empty list of non-empty strings, falling back to the original
direction verbatim when cleanup leaves nothing; fragments that clean to
empty are discarded, but a bare-conjunction fragment is kept. -/
theorem segmenter_nonempty_fallback (direction : String) (h : direction ≠ "") :
    split_into_atomic_steps_legacy direction ≠ []
    ∧ (∀ s ∈ split_into_atomic_steps_legacy direction, s ≠ "")
    ∧ (cleanedParts (regexCascade direction.data) = [] →
        split_into_atomic_steps_legacy direction = [direction]) := by
  have hsplit : split_into_atomic_steps_legacy direction =
      (if (cleanedParts (regexCascade direction.data)).isEmpty then [direction.data]
       else cleanedParts (regexCascade direction.data)).map strOf := rfl
  by_cases hcl : (cleanedParts (regexCascade direction.data)).isEmpty = true
  · rw [hsplit, if_pos hcl]
    refine ⟨by simp, ?_, fun _ => by simp [strOf_data]⟩
    intro s hs
    simp only [List.map_cons, List.map_nil, strOf_data, List.mem_singleton] at hs
    rw [hs]
    exact h
  · rw [hsplit, if_neg hcl]
    refine ⟨?_, ?_, ?_⟩
    · intro hnil
      rw [List.map_eq_nil_iff] at hnil
      exact hcl (by rw [hnil]; rfl)
    · intro s hs
      rw [List.mem_map] at hs
      obtain ⟨l, hl, hsl⟩ := hs
      have hne : l ≠ [] := mem_cleanedParts_ne_nil hl
      rw [← hsl]
      simp only [strOf, ne_eq, String.ext_iff]
      simpa using hne
    · intro hc
      exact absurd (by rw [hc]; rfl :
        (cleanedParts (regexCascade direction.data)).isEmpty = true) hcl

/-- Witness for C6 (amended). -/
theorem segmenter_nonempty_fallback_witness :
    split_into_atomic_steps_legacy "Stir." ≠ [] :=
  (segmenter_nonempty_fallback "Stir." (by decide)).1

/-- Claim C7: the steps emitted by `parse_steps_from_directions` are
numbered contiguously from 1 in emission order, for every input, context,
splitting mode and tool extractor. -/
theorem step_numbering_contiguous (tools : String → List String)
    (ds : List String) (ings : List Ingredient) (context : Option ParseContext)
    (split : Bool) :
    (parse_steps_from_directions tools ds ings context split).map Step.step_number =
      List.range' 1 (parse_steps_from_directions tools ds ings context split).length := by
  unfold parse_steps_from_directions
  exact (numberedAcc_parse_core tools ds ings (context.getD {}) split).1

/-- Claim C8: the oven-temperature context is scoped to one invocation.
A second default-context invocation after any first invocation equals the
standalone invocation (the entry point replaces `None` by a fresh empty
context, so the first call's final context is unreachable); and the reset
is substantive: threading a non-empty prior context CAN change the output,
exhibited concretely. -/
theorem parse_context_fresh_per_invocation :
    (∀ (tools : String → List String) (ds : List String) (ings : List Ingredient)
        (split : Bool) (prior : ParseContext),
        second_invocation_after tools ds ings split prior =
          parse_steps_from_directions tools ds ings none split)
    ∧ (∀ (tools : String → List String) (ds : List String) (ings : List Ingredient)
        (split : Bool),
        parse_steps_from_directions tools ds ings none split =
          (parse_core tools ds ings {} split).1)
    ∧ (∃ (tools : String → List String) (ds : List String) (ings : List Ingredient)
        (split : Bool) (prior : ParseContext),
        (parse_core tools ds ings prior split).1 ≠
          parse_steps_from_directions tools ds ings none split) := by
  refine ⟨fun _ _ _ _ _ => rfl, fun _ _ _ _ => rfl,
    ⟨fun _ => [], ["Bake for 30 minutes."], [], true,
     { oven_temp := some "350°F" }, ?_⟩⟩
  decide

/-- Claim C9: when the spaCy model fails to load, every extraction entry
point invoked under the advanced strategy fails fast with the RuntimeError
message of `get_nlp`, instead of silently falling back to the regex
strategy. -/
theorem spacy_unavailable_fails_fast (text : String) (ings : List Ingredient) :
    extract_time_from_text none text true = Except.error spacyLoadError
    ∧ extract_temperature_from_text none text true = Except.error spacyLoadError
    ∧ extract_methods_from_text none text true = Except.error spacyLoadError
    ∧ split_into_atomic_steps none text true = Except.error spacyLoadError
    ∧ classify_step_type none text true = Except.error spacyLoadError
    ∧ extract_ingredients_from_step none text ings true = Except.error spacyLoadError :=
  ⟨rfl, rfl, rfl, rfl, rfl, rfl⟩

/-- Claim C10: the regex time extractor converts numeric durations with
int(float(...)), truncating toward zero: "bake for 1.5 hours" gives
{duration: 1, unit: "hour"} and the endpoints of "1.5 to 2.5 hours" are
truncated the same way. -/
theorem duration_fraction_truncated :
    extract_time_from_text none "bake for 1.5 hours" false =
      Except.ok { duration := some (Sum.inl 1), unit := some "hour" }
    ∧ extract_time_from_text none "cook for 1.5 to 2.5 hours" false =
      Except.ok { duration_min := some 1, duration_max := some 2, unit := some "hour" } := by
  constructor <;> decide

end Recipebot
